import Mathlib

/-!
Verification of the TPM 2.0 command/response codec layer (`src/tpm_codec.c`).

The development shallowly embeds the functions of `tpm_codec.c` that the
claims are about:

* `IsCommMediumError`, `CleanResponseCode` — response-code canonicalization;
* `TSS_BuildCommand` — command-buffer construction;
* `TSS_DispatchCmd` — response-header parsing and validation;
* `SignData` (with its update loop) — the chunked HMAC engine;
* `TSS_CreatePwAuthSession` — password-session construction;
* `TSS_GetTpmProperty` — the capability query checks.

Machine integers (`UINT16`/`UINT32`) are represented as `Nat`; C bitwise
operations map to `Nat` bitwise operations, which agree with the 32-bit
C semantics on every value the masks involved can produce.  Byte buffers
are `List Nat` (each element a byte value).  The external marshaling
library ("Type Codec" in the specification) is modelled from the spec's
wire-format description: all integral fields are big-endian.
-/

/-! ### TPM constants (values fixed by the TPM 2.0 specification headers) -/

def TPM_ST_NO_SESSIONS : Nat := 0x8001
def TPM_ST_SESSIONS : Nat := 0x8002
def TPM_RC_SUCCESS : Nat := 0
def TPM_RC_BAD_TAG : Nat := 0x1E
def RC_FMT1 : Nat := 0x080
def RC_VER1 : Nat := 0x100
def RC_WARN : Nat := 0x900
def TPM_RC_FAILURE : Nat := RC_VER1 + 0x001
def TPM_RC_SIZE : Nat := RC_FMT1 + 0x015
def TPM_RC_INSUFFICIENT : Nat := RC_FMT1 + 0x01A
def TPM_RC_COMMAND_SIZE : Nat := RC_VER1 + 0x042
def TPM_RC_COMMAND_CODE : Nat := RC_VER1 + 0x043
def TPM_RC_NOT_USED : Nat := RC_WARN + 0x07F
def TPM_RH_UNASSIGNED : Nat := 0x40000008
def TPM_RS_PW : Nat := 0x40000009
def TPM_CAP_TPM_PROPERTIES : Nat := 6

/-- `#define TSS_BAD_PROPERTY ((UINT32)-1)` (tpm_codec.c line 23). -/
def TSS_BAD_PROPERTY : Nat := 4294967295

/-- Response/command header size: 2-byte tag + 4-byte size + 4-byte code. -/
def STD_RESPONSE_HEADER : Nat := 10

/-- Chunk-size cap of the `TSS_HMAC`/`TSS_SequenceUpdate`/`TSS_SequenceComplete`
helpers (`MAX_DIGEST_BUFFER` in the TPM headers). -/
def MAX_DIGEST_BUFFER : Nat := 1024

/-! ### Response-code canonicalizer (tpm_codec.c lines 212–226) -/

/-- `IsCommMediumError` (lines 212–216): a TBS / TPM-simulator protocol error,
recognized by its fixed high-order bit pattern. -/
def IsCommMediumError (code : Nat) : Bool :=
  (code &&& 0xFFFF0000) == 0x80280000

/-- `CleanResponseCode` (lines 218–226): communication-medium codes pass
through unchanged; otherwise mask to `RC_FMT1 | 0x3F` when the format-1 bit
is set, else to `TPM_RC_NOT_USED` (= `RC_WARN | RC_VER1 | 0x7F`). -/
def CleanResponseCode (rawResponse : Nat) : Nat :=
  if IsCommMediumError rawResponse then
    rawResponse
  else
    let mask := if rawResponse &&& RC_FMT1 ≠ 0 then RC_FMT1 ||| 0x3F else TPM_RC_NOT_USED
    rawResponse &&& mask

/-! ### Bitwise helper lemmas -/

theorem land_zero_right (x : Nat) : x &&& 0 = 0 := by
  apply Nat.eq_of_testBit_eq
  intro i
  simp [Nat.testBit_land]

theorem land_land_self (x m : Nat) : (x &&& m) &&& m = x &&& m := by
  apply Nat.eq_of_testBit_eq
  intro i
  simp only [Nat.testBit_land, Bool.and_assoc, Bool.and_self]

theorem clean_of_comm {x : Nat} (h : IsCommMediumError x = true) :
    CleanResponseCode x = x := by
  simp [CleanResponseCode, h]

theorem clean_of_fmt1 {x : Nat} (hc : IsCommMediumError x = false)
    (hf : x &&& RC_FMT1 ≠ 0) :
    CleanResponseCode x = x &&& (RC_FMT1 ||| 0x3F) := by
  simp [CleanResponseCode, hc, hf]

theorem clean_of_ver1 {x : Nat} (hc : IsCommMediumError x = false)
    (hf : x &&& RC_FMT1 = 0) :
    CleanResponseCode x = x &&& TPM_RC_NOT_USED := by
  simp [CleanResponseCode, hc, hf]

theorem comm_of_masked_fmt1 (x : Nat) :
    IsCommMediumError (x &&& (RC_FMT1 ||| 0x3F)) = false := by
  unfold IsCommMediumError
  rw [Nat.land_assoc]
  have h : ((RC_FMT1 ||| 0x3F) &&& 0xFFFF0000) = 0 := by decide
  rw [h, land_zero_right]
  decide

theorem comm_of_masked_ver1 (x : Nat) :
    IsCommMediumError (x &&& TPM_RC_NOT_USED) = false := by
  unfold IsCommMediumError
  rw [Nat.land_assoc]
  have h : (TPM_RC_NOT_USED &&& 0xFFFF0000) = 0 := by decide
  rw [h, land_zero_right]
  decide

/-- The canonicalizer is idempotent, and communication-medium codes pass
through unchanged. -/
theorem cleanResponseCode_spec (x : Nat) :
    CleanResponseCode (CleanResponseCode x) = CleanResponseCode x ∧
    (IsCommMediumError x = true → CleanResponseCode x = x) := by
  refine ⟨?_, clean_of_comm⟩
  cases hc : IsCommMediumError x with
  | true => rw [clean_of_comm hc, clean_of_comm hc]
  | false =>
    by_cases hf : x &&& RC_FMT1 = 0
    · rw [clean_of_ver1 hc hf]
      have hbit : (x &&& TPM_RC_NOT_USED) &&& RC_FMT1 = 0 := by
        rw [Nat.land_assoc]
        have h2 : TPM_RC_NOT_USED &&& RC_FMT1 = 0 := by decide
        rw [h2, land_zero_right]
      rw [clean_of_ver1 (comm_of_masked_ver1 x) hbit, land_land_self]
    · rw [clean_of_fmt1 hc hf]
      have hbit : (x &&& (RC_FMT1 ||| 0x3F)) &&& RC_FMT1 = x &&& RC_FMT1 := by
        rw [Nat.land_assoc]
        have h2 : (RC_FMT1 ||| 0x3F) &&& RC_FMT1 = RC_FMT1 := by decide
        rw [h2]
      rw [clean_of_fmt1 (comm_of_masked_fmt1 x) (fun h => hf (hbit ▸ h)),
        land_land_self]

/-! ### Session data model (TSS_SESSION with TPMS_AUTH_COMMAND / _RESPONSE)

`TPM2B` buffers are modelled as the list of their meaningful bytes (the
`size` field is the list length).  Session attribute flags are one byte;
bit 0 is `continueSession`. -/

structure TPMS_AUTH_COMMAND where
  sessionHandle : Nat
  nonce : List Nat
  sessionAttributes : Nat
  hmac : List Nat
deriving DecidableEq

structure TPMS_AUTH_RESPONSE where
  nonce : List Nat
  sessionAttributes : Nat
deriving DecidableEq

structure TSS_SESSION where
  SessIn : TPMS_AUTH_COMMAND
  SessOut : TPMS_AUTH_RESPONSE
deriving DecidableEq

/-! ### Wire encoding

Modelled from the spec: the external Type Codec marshals every integral
field big-endian (§6: `tag(2) | size(4) | commandCode(4) | handle(4)*N |
[authSize(4) | authRecord*M] | params(...)`), and a `TPM2B` field as a
2-byte size followed by that many bytes. -/

/-- Modelled from the spec: big-endian 2-byte encoding (Type Codec `UINT16`). -/
def UINT16_Marshal (x : Nat) : List Nat :=
  [x / 256 % 256, x % 256]

/-- Modelled from the spec: big-endian 4-byte encoding (Type Codec `UINT32`). -/
def UINT32_Marshal (x : Nat) : List Nat :=
  [x / 16777216 % 256, x / 65536 % 256, x / 256 % 256, x % 256]

/-- Modelled from the spec: a `TPM2B` is a 2-byte size then the bytes. -/
def TPM2B_Marshal (bytes : List Nat) : List Nat :=
  UINT16_Marshal bytes.length ++ bytes

/-- Modelled from the spec: a session's authorization record is its handle,
nonce, attribute byte and authorization value, concatenated (§4.1). -/
def TPMS_AUTH_COMMAND_Marshal (s : TPMS_AUTH_COMMAND) : List Nat :=
  UINT32_Marshal s.sessionHandle ++ TPM2B_Marshal s.nonce ++
    [s.sessionAttributes % 256] ++ TPM2B_Marshal s.hmac

/-- Byte of a buffer at an index (out of range reads 0). -/
def byteAt (buf : List Nat) (i : Nat) : Nat := buf.getD i 0

/-- Big-endian 16-bit read at an offset. -/
def readBE16 (buf : List Nat) (off : Nat) : Nat :=
  256 * byteAt buf off + byteAt buf (off + 1)

/-- Big-endian 32-bit read at an offset. -/
def readBE32 (buf : List Nat) (off : Nat) : Nat :=
  16777216 * byteAt buf off + 65536 * byteAt buf (off + 1) +
    256 * byteAt buf (off + 2) + byteAt buf (off + 3)

/-- `*(TPM_ST*)buf` on a little-endian host (tpm_codec.c line 984 reads the
first two response bytes through a `TPM_ST` pointer). -/
def readLE16 (buf : List Nat) : Nat :=
  byteAt buf 0 + 256 * byteAt buf 1

/-- Total encoded length of the authorization records of a session list
(the value accumulated into `authSize` at line 1161). -/
def authAreaLen (ss : List TSS_SESSION) : Nat :=
  ((ss.map fun s => TPMS_AUTH_COMMAND_Marshal s.SessIn).flatten).length

/-! ### Command builder (tpm_codec.c lines 1095–1188)

`handles` and `sessions` are `Option` lists: `none` is a NULL array
pointer, `some l` a non-null array holding `l.length` entries, so the C
argument pairs (pointer, count) map to `Option (List _)`; the rejected
mismatch `(!handles && numHandles)` / `(!sessions && numSessions)` has no
representation.  The two reserved-then-back-patched size fields (total
size at offset 2, authorization-area size after the handles) are modelled
by writing their final values at the same offsets, which yields the same
bytes.  Returns `none` for the hard validation failure (C returns 0 with
no bytes marshaled), otherwise `some (cmdSize, buffer)`. -/

def TSS_BuildCommand (cmdCode : Nat) (handles : Option (List Nat))
    (sessions : Option (List TSS_SESSION)) (params : List Nat)
    (bufCapacity : Nat) : Option (Nat × List Nat) :=
  if cmdCode < 0x11f || 0x193 < cmdCode || bufCapacity < STD_RESPONSE_HEADER then
    none
  else
    -- line 1110: the tag is chosen by pointer non-nullness
    let tag := if sessions.isSome then TPM_ST_SESSIONS else TPM_ST_NO_SESSIONS
    let hs := handles.getD []
    let ss := sessions.getD []
    let tagBytes := UINT16_Marshal tag
    let ccBytes := UINT32_Marshal cmdCode
    let handleBytes := hs.flatMap UINT32_Marshal
    let authRecords := (ss.map fun s => TPMS_AUTH_COMMAND_Marshal s.SessIn).flatten
    -- line 1147: the authorization area is emitted only when numSessions > 0
    let authArea :=
      if 0 < ss.length then UINT32_Marshal authRecords.length ++ authRecords else []
    -- cmdSize accumulates the bytes written by each marshal call; the `4`
    -- is the reserved slot for the total-size field itself
    let cmdSize := tagBytes.length + 4 + ccBytes.length + handleBytes.length +
      authArea.length + params.length
    some (cmdSize, tagBytes ++ UINT32_Marshal cmdSize ++ ccBytes ++ handleBytes ++
      authArea ++ params)

/-! ### Byte-buffer lemmas -/

theorem byteAt_shift (pre l : List Nat) (i : Nat) :
    byteAt (pre ++ l) (pre.length + i) = byteAt l i := by
  unfold byteAt
  rw [List.getD_append_right pre l 0 _ (Nat.le_add_right _ _), Nat.add_sub_cancel_left]

theorem readBE32_shift (pre l : List Nat) (off : Nat) :
    readBE32 (pre ++ l) (pre.length + off) = readBE32 l off := by
  unfold readBE32
  have h1 : pre.length + off + 1 = pre.length + (off + 1) := by omega
  have h2 : pre.length + off + 2 = pre.length + (off + 2) := by omega
  have h3 : pre.length + off + 3 = pre.length + (off + 3) := by omega
  rw [h1, h2, h3, byteAt_shift, byteAt_shift, byteAt_shift, byteAt_shift]

theorem readBE32_marshal (v : Nat) (post : List Nat) :
    readBE32 (UINT32_Marshal v ++ post) 0 = v % 4294967296 := by
  have h : readBE32 (UINT32_Marshal v ++ post) 0 =
      16777216 * (v / 16777216 % 256) + 65536 * (v / 65536 % 256) +
        256 * (v / 256 % 256) + v % 256 := rfl
  rw [h]
  omega

theorem readBE32_field (pre post : List Nat) (v : Nat) :
    readBE32 (pre ++ (UINT32_Marshal v ++ post)) pre.length = v % 4294967296 := by
  have h := readBE32_shift pre (UINT32_Marshal v ++ post) 0
  rw [Nat.add_zero] at h
  rw [h, readBE32_marshal]

theorem UINT16_Marshal_length (x : Nat) : (UINT16_Marshal x).length = 2 := rfl

theorem UINT32_Marshal_length (x : Nat) : (UINT32_Marshal x).length = 4 := rfl

theorem flatMap_UINT32_length (hs : List Nat) :
    (hs.flatMap UINT32_Marshal).length = 4 * hs.length := by
  induction hs with
  | nil => rfl
  | cons a t ih =>
    simp only [List.flatMap_cons, List.length_append, List.length_cons, ih,
      UINT32_Marshal_length]
    omega

theorem readBE32_after_tag (t : Nat) (l : List Nat) :
    readBE32 (UINT16_Marshal t ++ l) 2 = readBE32 l 0 := by
  have h := readBE32_shift (UINT16_Marshal t) l 0
  simpa using h

/-- C5: every successful `TSS_BuildCommand` call returns a length equal to
the number of bytes marshaled, and the 4-byte big-endian total-size field
at offset 2 of the produced buffer equals that length. -/
theorem buildCommand_size_field (cmdCode : Nat) (handles : Option (List Nat))
    (sessions : Option (List TSS_SESSION)) (params : List Nat)
    (bufCapacity n : Nat) (buf : List Nat)
    (h : TSS_BuildCommand cmdCode handles sessions params bufCapacity = some (n, buf))
    (hn : n < 4294967296) :
    n = buf.length ∧ readBE32 buf 2 = n := by
  unfold TSS_BuildCommand at h
  split at h
  · exact absurd h (by simp)
  · simp only [Option.some.injEq, Prod.mk.injEq] at h
    obtain ⟨h1, h2⟩ := h
    subst h2
    refine ⟨?_, ?_⟩
    · rw [← h1]
      simp only [List.length_append, UINT16_Marshal_length, UINT32_Marshal_length]
    · simp only [List.append_assoc, readBE32_after_tag, readBE32_marshal]
      omega

theorem take_two_marshal (t : Nat) (l : List Nat) :
    (UINT16_Marshal t ++ l).take 2 = UINT16_Marshal t := rfl

/-- C5 witness: the 10-byte no-session, no-handle, no-parameter command
(`TPM2_Startup`) carries 10 in its size field. -/
theorem buildCommand_size_field_witness :
    (10 : Nat) = [128, 1, 0, 0, 0, 10, 0, 0, 1, 68].length ∧
      readBE32 [128, 1, 0, 0, 0, 10, 0, 0, 1, 68] 2 = 10 :=
  buildCommand_size_field 0x144 none none [] 4096 10
    [128, 1, 0, 0, 0, 10, 0, 0, 1, 68] (by decide) (by decide)

/-- C3 (amended): the command tag is the sessions tag exactly when the
session array pointer is non-null; the 4-byte authorization-area-size
field is written after the handles exactly when the session count is at
least 1, and then equals the total encoded length of the session
authorization records; for a count of 0 no such field is written. -/
theorem buildCommand_tag_and_auth (cmdCode : Nat) (handles : Option (List Nat))
    (sessions : Option (List TSS_SESSION)) (params : List Nat)
    (bufCapacity n : Nat) (buf : List Nat)
    (h : TSS_BuildCommand cmdCode handles sessions params bufCapacity = some (n, buf))
    (ha : authAreaLen (sessions.getD []) < 4294967296) :
    buf.take 2 =
      UINT16_Marshal (if sessions.isSome then TPM_ST_SESSIONS else TPM_ST_NO_SESSIONS) ∧
    (0 < (sessions.getD []).length →
      readBE32 buf (10 + 4 * (handles.getD []).length) = authAreaLen (sessions.getD []) ∧
      buf.length =
        10 + 4 * (handles.getD []).length + 4 + authAreaLen (sessions.getD []) +
          params.length) ∧
    ((sessions.getD []).length = 0 →
      buf.length = 10 + 4 * (handles.getD []).length + params.length) := by
  unfold TSS_BuildCommand at h
  split at h
  · exact absurd h (by simp)
  · simp only [Option.some.injEq, Prod.mk.injEq] at h
    obtain ⟨h1, h2⟩ := h
    subst h2
    rw [h1]
    refine ⟨?_, ?_, ?_⟩
    · simp only [List.append_assoc, take_two_marshal]
    · intro hlen
      rw [if_pos hlen]
      constructor
      · have hpre :
            (UINT16_Marshal
                (if sessions.isSome then TPM_ST_SESSIONS else TPM_ST_NO_SESSIONS) ++
              (UINT32_Marshal n ++
                (UINT32_Marshal cmdCode ++
                  (handles.getD []).flatMap UINT32_Marshal))).length =
            10 + 4 * (handles.getD []).length := by
          simp only [List.length_append, UINT16_Marshal_length, UINT32_Marshal_length,
            flatMap_UINT32_length]
          omega
        have hb :
            UINT16_Marshal
                (if sessions.isSome then TPM_ST_SESSIONS else TPM_ST_NO_SESSIONS) ++
              UINT32_Marshal n ++ UINT32_Marshal cmdCode ++
              (handles.getD []).flatMap UINT32_Marshal ++
              (UINT32_Marshal
                (((sessions.getD []).map fun s =>
                  TPMS_AUTH_COMMAND_Marshal s.SessIn).flatten).length ++
                ((sessions.getD []).map fun s =>
                  TPMS_AUTH_COMMAND_Marshal s.SessIn).flatten) ++ params =
            (UINT16_Marshal
                (if sessions.isSome then TPM_ST_SESSIONS else TPM_ST_NO_SESSIONS) ++
              (UINT32_Marshal n ++
                (UINT32_Marshal cmdCode ++
                  (handles.getD []).flatMap UINT32_Marshal))) ++
              (UINT32_Marshal
                (((sessions.getD []).map fun s =>
                  TPMS_AUTH_COMMAND_Marshal s.SessIn).flatten).length ++
                (((sessions.getD []).map fun s =>
                  TPMS_AUTH_COMMAND_Marshal s.SessIn).flatten ++ params)) := by
          simp [List.append_assoc]
        rw [hb, ← hpre, readBE32_field]
        exact Nat.mod_eq_of_lt ha
      · simp only [List.length_append, UINT16_Marshal_length, UINT32_Marshal_length,
          flatMap_UINT32_length, authAreaLen]
        omega
    · intro hlen
      have hne : ¬ 0 < (sessions.getD []).length := by omega
      rw [if_neg hne]
      simp only [List.length_append, List.append_nil, UINT16_Marshal_length,
        UINT32_Marshal_length, flatMap_UINT32_length]

/-- C3 counterexample: calling the builder with a non-null but EMPTY session
array (`sessions = some []`, count 0) produces the SESSIONS tag `0x8002`,
where the claim requires the no-sessions tag for every length-0 session
list. -/
theorem buildCommand_empty_sessions_tag :
    (TSS_BuildCommand 0x144 none (some []) [] 4096).map (fun p => p.2.take 2) =
      some [128, 2] ∧
    [128, 2] ≠ UINT16_Marshal TPM_ST_NO_SESSIONS := by
  constructor
  · decide
  · decide

/-- C3 witness: a load command with one handle and one password session;
the authorization-area-size field (11 bytes) sits after the handle. -/
theorem buildCommand_tag_and_auth_witness :
    0 < ([(⟨⟨TPM_RS_PW, [], 1, [7, 7]⟩, ⟨[], 0⟩⟩ : TSS_SESSION)]).length ∧
      readBE32 [128, 2, 0, 0, 0, 32, 0, 0, 1, 87, 0, 0, 0, 5, 0, 0, 0, 11, 64, 0,
        0, 9, 0, 0, 1, 0, 2, 7, 7, 9, 9, 9] (10 + 4 * 1) = 11 := by
  refine ⟨by decide, ?_⟩
  have h := buildCommand_tag_and_auth 0x157 (some [5])
    (some [⟨⟨TPM_RS_PW, [], 1, [7, 7]⟩, ⟨[], 0⟩⟩]) [9, 9, 9] 4096 32
    [128, 2, 0, 0, 0, 32, 0, 0, 1, 87, 0, 0, 0, 5, 0, 0, 0, 11, 64, 0,
      0, 9, 0, 0, 1, 0, 2, 7, 7, 9, 9, 9] (by decide) (by decide)
  have h2 := (h.2.1 (by decide)).1
  simpa using h2

/-- C6 witness: idempotence and pass-through at the concrete
communication-medium code `0x80280400` (TBS-family). -/
theorem cleanResponseCode_spec_witness :
    CleanResponseCode (CleanResponseCode 0x80280400) = CleanResponseCode 0x80280400 ∧
      CleanResponseCode 0x80280400 = 0x80280400 :=
  ⟨(cleanResponseCode_spec 0x80280400).1,
    (cleanResponseCode_spec 0x80280400).2 (by decide)⟩

/-! ### Dispatcher (tpm_codec.c lines 942–1077)

The device handle holds the last raw status observed (`TSS_DEVICE`).
The transport outcome of `TSS_SendCommand` is modelled by a flag
(`transportOk = false` for any non-`TSS_SUCCESS` result) together
with the contents of the response buffer.  The Type Codec unmarshal
of the header fields is modelled from the spec: plain big-endian field
decode, failing (with `TPM_RC_INSUFFICIENT`, as the `TSS_UNMARSHAL`
macro does) when fewer bytes remain than the field needs. -/

structure TSS_DEVICE where
  LastRawResponse : Nat
deriving DecidableEq, Inhabited

/-- The dispatch outputs living in the command context: the handle
returned by the command and the response-parameter size. -/
structure DispatchOut where
  RetHandle : Nat
  RespParamSize : Nat
deriving DecidableEq

/-- Context outputs as initialized at lines 966–967, before any send. -/
def initOut : DispatchOut :=
  { RetHandle := TPM_RH_UNASSIGNED, RespParamSize := 0 }

/-- The fixed set of command codes whose success response carries a
freshly created handle (lines 1008–1015): CreatePrimary, Load,
HMAC_Start, ContextLoad, LoadExternal, StartAuthSession,
HashSequenceStart, CreateLoaded. -/
def handleReturningCmd (cmdCode : Nat) : Bool :=
  cmdCode == 0x131 || cmdCode == 0x157 || cmdCode == 0x15B || cmdCode == 0x161 ||
    cmdCode == 0x167 || cmdCode == 0x176 || cmdCode == 0x186 || cmdCode == 0x191

/-- `TSS_DispatchCmd` (lines 942–1042).  Builds the command, then models
the response processing exactly: the (unsatisfiable) bad-tag check of
line 984, the header unmarshal, the size check, the returned-handle and
response-parameter-size decoding, and the final canonicalization.
Returns the device (with `LastRawResponse` updated as the C does), the
`TPM_RC` result, and the context outputs. -/
def TSS_DispatchCmd (cmdCode : Nat) (handles : Option (List Nat))
    (sessions : Option (List TSS_SESSION)) (params : List Nat)
    (transportOk : Bool) (resp : List Nat) (dev : TSS_DEVICE) :
    TSS_DEVICE × Nat × DispatchOut :=
  let _cmd := TSS_BuildCommand cmdCode handles sessions params 4096
  if transportOk = false then
    -- line 977: any transport failure yields TPM_RC_COMMAND_CODE
    (dev, TPM_RC_COMMAND_CODE, initOut)
  else if readLE16 resp = TPM_ST_NO_SESSIONS ∧ readLE16 resp = TPM_ST_SESSIONS then
    -- lines 984–989, transcribed as written: `tag == TPM_ST_NO_SESSIONS
    -- && tag == TPM_ST_SESSIONS`
    (dev, TPM_RC_BAD_TAG, initOut)
  else
    let dev := { LastRawResponse := TPM_RC_NOT_USED : TSS_DEVICE }
    if resp.length < 2 then (dev, TPM_RC_INSUFFICIENT, initOut) else
    let tag := readBE16 resp 0
    if resp.length < 6 then (dev, TPM_RC_INSUFFICIENT, initOut) else
    let expectedSize := readBE32 resp 2
    if resp.length < 10 then (dev, TPM_RC_INSUFFICIENT, initOut) else
    let raw := readBE32 resp 6
    let dev := { LastRawResponse := raw : TSS_DEVICE }
    if resp.length ≠ expectedSize then (dev, TPM_RC_COMMAND_SIZE, initOut) else
    if raw = TPM_RC_SUCCESS then
      if handleReturningCmd cmdCode then
        if resp.length < 14 then (dev, TPM_RC_INSUFFICIENT, initOut) else
        let retHandle := readBE32 resp 10
        let out := { initOut with RetHandle := retHandle }
        if retHandle = 0 ∨ retHandle = TPM_RH_UNASSIGNED then
          (dev, TPM_RC_COMMAND_CODE, out)
        else if tag = TPM_ST_SESSIONS then
          if resp.length < 18 then (dev, TPM_RC_INSUFFICIENT, out) else
          (dev, CleanResponseCode raw, { out with RespParamSize := readBE32 resp 14 })
        else
          (dev, CleanResponseCode raw, out)
      else if tag = TPM_ST_SESSIONS then
        if resp.length < 14 then (dev, TPM_RC_INSUFFICIENT, initOut) else
        (dev, CleanResponseCode raw, { initOut with RespParamSize := readBE32 resp 10 })
      else
        (dev, CleanResponseCode raw, initOut)
    else
      (dev, CleanResponseCode raw, initOut)

/-- C1: the response-tag validation of line 984 compares the leading tag
for equality with BOTH valid values conjunctively, which no value
satisfies; a response whose tag (0x0000) is neither `TPM_ST_NO_SESSIONS`
nor `TPM_ST_SESSIONS` is nevertheless accepted — the dispatcher parses
the rest of the header and returns `TPM_RC_SUCCESS`, never
`TPM_RC_BAD_TAG`. -/
theorem dispatch_accepts_bad_tag :
    (TSS_DispatchCmd 0x144 none none [] true
        [0, 0, 0, 0, 0, 10, 0, 0, 0, 0] default).2.1 = TPM_RC_SUCCESS ∧
    TPM_RC_SUCCESS ≠ TPM_RC_BAD_TAG ∧
    readBE16 [0, 0, 0, 0, 0, 10, 0, 0, 0, 0] 0 ≠ TPM_ST_NO_SESSIONS ∧
    readBE16 [0, 0, 0, 0, 0, 10, 0, 0, 0, 0] 0 ≠ TPM_ST_SESSIONS := by
  refine ⟨by decide, by decide, by decide, by decide⟩

/-- C4 (amended): on any transport failure the dispatcher returns the
fixed code `TPM_RC_COMMAND_CODE` — a TPM-format status code, not a
member of the communication-medium (transport) code family — without
reading any byte of the response buffer (the outcome is the same for
every buffer content, and the device's last-raw-response slot is left
untouched). -/
theorem dispatch_transport_failure (cmdCode : Nat) (handles : Option (List Nat))
    (sessions : Option (List TSS_SESSION)) (params : List Nat)
    (resp : List Nat) (dev : TSS_DEVICE) :
    TSS_DispatchCmd cmdCode handles sessions params false resp dev =
      (dev, TPM_RC_COMMAND_CODE, initOut) ∧
    CleanResponseCode TPM_RC_COMMAND_CODE = TPM_RC_COMMAND_CODE ∧
    IsCommMediumError TPM_RC_COMMAND_CODE = false := by
  refine ⟨rfl, by decide, by decide⟩

/-- C4 counterexample: with a failing transport the dispatcher returns
`0x143` (`TPM_RC_COMMAND_CODE`), which the code's own transport-error
classifier rejects (`IsCommMediumError 0x143 = false`) and which the
canonicalizer treats as a device-family code (it is a fixed point),
contradicting the claim that a transport-class code is returned. -/
theorem dispatch_transport_failure_counterex :
    (TSS_DispatchCmd 0x144 none none [] false [] default).2.1 = 0x143 ∧
    IsCommMediumError 0x143 = false ∧
    CleanResponseCode 0x143 = 0x143 := by
  refine ⟨by decide, by decide, by decide⟩

/-! ### Chunked HMAC engine (tpm_codec.c lines 280–339)

`SignData` is driven by a device oracle `oracle : Nat → Nat` giving the
raw 32-bit status code of the i-th command it dispatches (transport and
response framing are assumed well-formed, and the sequence handle
returned by a successful start is assumed valid, as in the function's
own contract comment at lines 273–276).  The device's input limit
(`TSS_GetTpmProperty(tpm, TPM_PT_INPUT_BUFFER)`, a separate capability
query, not one of the signing commands) is taken as the parameter
`maxInputBuffer`.  The model also records the trace of signing commands
actually dispatched. -/

/-- One dispatched signing command, with the byte count it carries. -/
inductive TpmCmd where
  | hmacStart
  | seqUpdate (len : Nat)
  | seqComplete (len : Nat)
  | hmacOneShot (len : Nat)
deriving DecidableEq

/-- The `do { update; bytesLeft -= M; } while (bytesLeft > M)` loop of
lines 316–322, together with the `TSS_SequenceUpdate` pre-dispatch size
guard (line 496).  Arguments: oracle, chunk size `M`, remaining bytes,
next oracle index, device.  Returns the device, the next oracle index,
the loop's `TPM_RC`, the remaining byte count after the loop, and the
trace of dispatched update commands.  The C loops forever when `M = 0`
(`bytesLeft` never decreases); that branch is modelled as an immediate
return and is excluded by the `0 < M` hypothesis of every theorem. -/
def runUpdates (oracle : Nat → Nat) (M : Nat) :
    Nat → Nat → TSS_DEVICE → TSS_DEVICE × Nat × Nat × Nat × List TpmCmd
  | bytesLeft, idx, dev =>
    if _hM : M = 0 then (dev, idx, TPM_RC_SUCCESS, bytesLeft, [])
    else if MAX_DIGEST_BUFFER < M then (dev, idx, TPM_RC_SIZE, bytesLeft, [])
    else
      let raw := oracle idx
      let dev' : TSS_DEVICE := { LastRawResponse := raw }
      let rc := CleanResponseCode raw
      if rc ≠ TPM_RC_SUCCESS then (dev', idx + 1, rc, bytesLeft, [.seqUpdate M])
      else if h : M < bytesLeft - M then
        let r := runUpdates oracle M (bytesLeft - M) (idx + 1) dev'
        (r.1, r.2.1, r.2.2.1, r.2.2.2.1, .seqUpdate M :: r.2.2.2.2)
      else (dev', idx + 1, TPM_RC_SUCCESS, bytesLeft - M, [.seqUpdate M])
  termination_by bytesLeft => bytesLeft
  decreasing_by omega

/-- `SignData` (lines 280–339): one-shot HMAC when the payload fits the
device limit, otherwise start / update* / complete; any failing step
jumps to `end` with `sigBufSize = 0` and no copy into the caller's
signature buffer.  Returns the device, the `result` value, whether the
digest was copied into the caller's buffer, and the dispatched trace. -/
def SignData (oracle : Nat → Nat) (tokenSize maxInputBuffer sigBufSize : Nat)
    (dev : TSS_DEVICE) : TSS_DEVICE × Nat × Bool × List TpmCmd :=
  -- sigSize = TSS_GetDigestSize(ALG_SHA256_VALUE) = 32
  if sigBufSize < 32 then (dev, 32, false, [])
  else if maxInputBuffer < tokenSize then
    -- TPM2_HMAC_Start (the returned sequence handle is modelled as valid)
    let raw0 := oracle 0
    let dev0 : TSS_DEVICE := { LastRawResponse := raw0 }
    if CleanResponseCode raw0 ≠ TPM_RC_SUCCESS then (dev0, 0, false, [.hmacStart])
    else
      let r := runUpdates oracle maxInputBuffer tokenSize 1 dev0
      let dev1 := r.1
      let idx1 := r.2.1
      let rc1 := r.2.2.1
      let bytesLeft := r.2.2.2.1
      let tr := r.2.2.2.2
      if rc1 ≠ TPM_RC_SUCCESS then (dev1, 0, false, .hmacStart :: tr)
      else if MAX_DIGEST_BUFFER < bytesLeft then
        -- TSS_SequenceComplete size guard (line 476), no dispatch
        (dev1, 0, false, .hmacStart :: tr)
      else
        let raw2 := oracle idx1
        let dev2 : TSS_DEVICE := { LastRawResponse := raw2 }
        if CleanResponseCode raw2 ≠ TPM_RC_SUCCESS then
          (dev2, 0, false, .hmacStart :: (tr ++ [.seqComplete bytesLeft]))
        else
          (dev2, 32, true, .hmacStart :: (tr ++ [.seqComplete bytesLeft]))
  else
    -- one-shot TSS_HMAC; its size guard (line 354) dispatches nothing
    if MAX_DIGEST_BUFFER < tokenSize then (dev, 0, false, [])
    else
      let raw0 := oracle 0
      let dev0 : TSS_DEVICE := { LastRawResponse := raw0 }
      if CleanResponseCode raw0 ≠ TPM_RC_SUCCESS then (dev0, 0, false, [.hmacOneShot tokenSize])
      else (dev0, 32, true, [.hmacOneShot tokenSize])

/-- The trace of signing commands `SignData` dispatches when every
command succeeds (raw status 0 throughout). -/
def signDataCmds (tokenSize maxInputBuffer : Nat) : List TpmCmd :=
  (SignData (fun _ => 0) tokenSize maxInputBuffer 32 default).2.2.2

theorem clean_zero : CleanResponseCode 0 = TPM_RC_SUCCESS := by decide

theorem runUpdates_ok (oracle : Nat → Nat) (M : Nat) (hM : 0 < M)
    (hMax : M ≤ MAX_DIGEST_BUFFER) :
    ∀ b idx dev, M < b →
    (∀ j, j < (b - 1) / M → CleanResponseCode (oracle (idx + j)) = TPM_RC_SUCCESS) →
    runUpdates oracle M b idx dev =
      ({ LastRawResponse := oracle (idx + (b - 1) / M - 1) }, idx + (b - 1) / M,
        TPM_RC_SUCCESS, b - M * ((b - 1) / M),
        List.replicate ((b - 1) / M) (.seqUpdate M)) := by
  intro b
  induction b using Nat.strong_induction_on with
  | _ b ih =>
    intro idx dev hb hsucc
    have hu1 : 1 ≤ (b - 1) / M := by
      rw [Nat.one_le_div_iff hM]
      omega
    have h0 : CleanResponseCode (oracle idx) = TPM_RC_SUCCESS := by
      have := hsucc 0 (by omega)
      simpa using this
    rw [runUpdates]
    rw [dif_neg (by omega : ¬ M = 0), if_neg (by omega : ¬ MAX_DIGEST_BUFFER < M)]
    simp only [h0, ne_eq, not_true_eq_false, if_false]
    by_cases hrec : M < b - M
    · rw [dif_pos hrec]
      have hdiv : (b - 1) / M = (b - M - 1) / M + 1 := by
        have h1 : b - 1 = (b - M - 1) + M := by omega
        rw [h1, Nat.add_div_right _ hM]
      have hrecL : runUpdates oracle M (b - M) (idx + 1) { LastRawResponse := oracle idx } =
          ({ LastRawResponse := oracle (idx + 1 + (b - M - 1) / M - 1) },
            idx + 1 + (b - M - 1) / M, TPM_RC_SUCCESS,
            (b - M) - M * ((b - M - 1) / M),
            List.replicate ((b - M - 1) / M) (.seqUpdate M)) := by
        apply ih (b - M) (by omega) (idx + 1) _ hrec
        intro j hj
        have hidx : idx + 1 + j = idx + (j + 1) := by omega
        rw [hidx]
        exact hsucc (j + 1) (by omega)
      rw [hrecL]
      have e1 : idx + 1 + (b - M - 1) / M - 1 = idx + (b - 1) / M - 1 := by omega
      have e2 : idx + 1 + (b - M - 1) / M = idx + (b - 1) / M := by omega
      have e3 : (b - M) - M * ((b - M - 1) / M) = b - M * ((b - 1) / M) := by
        have hd : M * ((b - 1) / M) = M * ((b - M - 1) / M) + M := by
          rw [hdiv]
          ring
        omega
      have e4 : TpmCmd.seqUpdate M :: List.replicate ((b - M - 1) / M) (.seqUpdate M) =
          List.replicate ((b - 1) / M) (.seqUpdate M) := by
        rw [hdiv, List.replicate_succ]
      rw [e1, e2, e3, e4]
    · rw [dif_neg hrec]
      have hu : (b - 1) / M = 1 := by
        have h1 : b - 1 = (b - 1 - M) + M := by omega
        rw [h1, Nat.add_div_right _ hM, Nat.div_eq_of_lt (by omega)]
      rw [hu]
      simp only [Nat.mul_one, List.replicate_one, Nat.add_sub_cancel]

theorem runUpdates_fail (oracle : Nat → Nat) (M : Nat) (hM : 0 < M)
    (hMax : M ≤ MAX_DIGEST_BUFFER) :
    ∀ b idx dev r, M < b → r + 1 ≤ (b - 1) / M →
    (∀ j, j < r → CleanResponseCode (oracle (idx + j)) = TPM_RC_SUCCESS) →
    CleanResponseCode (oracle (idx + r)) ≠ TPM_RC_SUCCESS →
    runUpdates oracle M b idx dev =
      ({ LastRawResponse := oracle (idx + r) }, idx + r + 1,
        CleanResponseCode (oracle (idx + r)), b - M * r,
        List.replicate (r + 1) (.seqUpdate M)) := by
  intro b
  induction b using Nat.strong_induction_on with
  | _ b ih =>
    intro idx dev r hb hr hpre hfail
    rw [runUpdates]
    rw [dif_neg (by omega : ¬ M = 0), if_neg (by omega : ¬ MAX_DIGEST_BUFFER < M)]
    cases r with
    | zero =>
      have hfail0 : CleanResponseCode (oracle idx) ≠ TPM_RC_SUCCESS := by
        simpa using hfail
      simp only [hfail0, ne_eq, not_false_eq_true, if_true]
      rfl
    | succ r' =>
      have h0 : CleanResponseCode (oracle idx) = TPM_RC_SUCCESS := by
        have := hpre 0 (by omega)
        simpa using this
      simp only [h0, ne_eq, not_true_eq_false, if_false]
      have hu2 : 2 ≤ (b - 1) / M := by omega
      have hb2 : 2 * M ≤ b - 1 := by
        rw [← Nat.le_div_iff_mul_le hM]
        omega
      have hrec : M < b - M := by omega
      rw [dif_pos hrec]
      have hdiv : (b - 1) / M = (b - M - 1) / M + 1 := by
        have h1 : b - 1 = (b - M - 1) + M := by omega
        rw [h1, Nat.add_div_right _ hM]
      have hrecL : runUpdates oracle M (b - M) (idx + 1) { LastRawResponse := oracle idx } =
          ({ LastRawResponse := oracle (idx + 1 + r') }, idx + 1 + r' + 1,
            CleanResponseCode (oracle (idx + 1 + r')), (b - M) - M * r',
            List.replicate (r' + 1) (.seqUpdate M)) := by
        apply ih (b - M) (by omega) (idx + 1) _ r' hrec (by omega)
        · intro j hj
          have hidx : idx + 1 + j = idx + (j + 1) := by omega
          rw [hidx]
          exact hpre (j + 1) (by omega)
        · have hidx : idx + 1 + r' = idx + (r' + 1) := by omega
          rw [hidx]
          exact hfail
      rw [hrecL]
      have e0 : idx + 1 + r' = idx + (r' + 1) := by omega
      have e3 : (b - M) - M * r' = b - M * (r' + 1) := by
        have hd : M * (r' + 1) = M * r' + M := by ring
        omega
      rw [e0, e3, ← List.replicate_succ]

theorem final_chunk_bounds (L M : Nat) (hM : 0 < M) (hL : M < L) :
    0 < L - M * ((L - 1) / M) ∧ L - M * ((L - 1) / M) ≤ M := by
  have key := Nat.div_add_mod (L - 1) M
  have hmod : (L - 1) % M < M := Nat.mod_lt _ hM
  omega

theorem signDataCmds_le (L M : Nat) (hMax : M ≤ MAX_DIGEST_BUFFER) (hL : L ≤ M) :
    signDataCmds L M = [.hmacOneShot L] := by
  unfold signDataCmds SignData
  rw [if_neg (show ¬ (32 : Nat) < 32 by omega), if_neg (show ¬ M < L by omega),
    if_neg (show ¬ MAX_DIGEST_BUFFER < L by omega)]
  simp only [clean_zero, ne_eq, not_true_eq_false, if_false]

theorem signDataCmds_gt (L M : Nat) (hM : 0 < M) (hMax : M ≤ MAX_DIGEST_BUFFER)
    (hL : M < L) :
    signDataCmds L M =
      .hmacStart :: (List.replicate ((L - 1) / M) (.seqUpdate M) ++
        [.seqComplete (L - M * ((L - 1) / M))]) := by
  unfold signDataCmds SignData
  rw [if_neg (show ¬ (32 : Nat) < 32 by omega), if_pos hL]
  simp only [clean_zero, ne_eq, not_true_eq_false, if_false]
  rw [runUpdates_ok (fun _ => 0) M hM hMax L 1 _ hL (fun j _ => clean_zero)]
  simp only [clean_zero, ne_eq, not_true_eq_false, if_false]
  have hbound := final_chunk_bounds L M hM hL
  rw [if_neg (show ¬ MAX_DIGEST_BUFFER < L - M * ((L - 1) / M) by omega)]

/-- C2 (amended): for `L > M` (with `0 < M` and `M` within the helpers'
1024-byte chunk cap) the engine issues `ceil(L/M) + 1` commands in total —
one start, `ceil(L/M) − 1` updates each of exactly `M` bytes, and one
complete whose length lies in `(0, M]`; for `L ≤ M` it issues exactly one
one-shot HMAC command. -/
theorem signData_chunking (L M : Nat) (hM : 0 < M) (hMax : M ≤ MAX_DIGEST_BUFFER) :
    (M < L →
      (signDataCmds L M).length = (L + M - 1) / M + 1 ∧
      signDataCmds L M =
        .hmacStart :: (List.replicate ((L - 1) / M) (.seqUpdate M) ++
          [.seqComplete (L - M * ((L - 1) / M))]) ∧
      0 < L - M * ((L - 1) / M) ∧ L - M * ((L - 1) / M) ≤ M) ∧
    (L ≤ M → signDataCmds L M = [.hmacOneShot L]) := by
  constructor
  · intro hL
    have htr := signDataCmds_gt L M hM hMax hL
    have hceil : (L + M - 1) / M = (L - 1) / M + 1 := by
      have h1 : L + M - 1 = (L - 1) + M := by omega
      rw [h1, Nat.add_div_right _ hM]
    refine ⟨?_, htr, final_chunk_bounds L M hM hL⟩
    rw [htr, hceil]
    simp [List.length_replicate]
  · intro hL
    exact signDataCmds_le L M hMax hL

/-- C2 counterexample: for `L = 3`, `M = 2` the engine issues 3 commands
(start, one update, one complete) while the claim's `ceil(L/M)` is 2. -/
theorem signData_chunking_counterex :
    (signDataCmds 3 2).length = 3 ∧ (3 + 2 - 1) / 2 = 2 ∧ (3 : Nat) ≠ 2 := by
  refine ⟨?_, by decide, by decide⟩
  rw [signDataCmds_gt 3 2 (by decide) (by decide) (by decide)]
  decide

/-- C2 witness: `L = 40`, `M = 16` — 4 commands, one update of 16 bytes
and a final complete of 8 bytes. -/
theorem signData_chunking_witness :
    (signDataCmds 40 16).length = (40 + 16 - 1) / 16 + 1 ∧
    signDataCmds 40 16 =
      .hmacStart :: (List.replicate ((40 - 1) / 16) (.seqUpdate 16) ++
        [.seqComplete (40 - 16 * ((40 - 1) / 16))]) ∧
    0 < 40 - 16 * ((40 - 1) / 16) ∧ 40 - 16 * ((40 - 1) / 16) ≤ 16 :=
  (signData_chunking 40 16 (by decide) (by decide)).1 (by decide)

/-- C7: a payload of exactly the device limit `M` is signed with a single
one-shot HMAC command; a payload of `M + 1` bytes is signed with
start / one update of `M` bytes / one complete of 1 byte. -/
theorem signData_boundary (M : Nat) (hM : 0 < M) (hMax : M ≤ MAX_DIGEST_BUFFER) :
    signDataCmds M M = [.hmacOneShot M] ∧
    signDataCmds (M + 1) M = [.hmacStart, .seqUpdate M, .seqComplete 1] := by
  constructor
  · exact signDataCmds_le M M hMax (Nat.le_refl M)
  · have htr := signDataCmds_gt (M + 1) M hM hMax (by omega)
    have hu : (M + 1 - 1) / M = 1 := by
      simp [Nat.div_self hM]
    rw [htr, hu]
    have hc : M + 1 - M * 1 = 1 := by omega
    rw [hc]
    rfl

/-- C7 witness: the boundary scenario at the concrete limit `M = 16`. -/
theorem signData_boundary_witness :
    signDataCmds 16 16 = [.hmacOneShot 16] ∧
    signDataCmds 17 16 = [.hmacStart, .seqUpdate 16, .seqComplete 1] := by
  have h := signData_boundary 16 (by decide) (by decide)
  simpa using h

/-- C10: if the k-th signing command dispatched by `SignData` fails (all
earlier ones succeeding), the function aborts: it returns 0, copies
nothing into the caller's signature buffer, and leaves the failing
command's raw status in the device's last-raw-response slot; when every
command succeeds it returns the digest size 32 ≠ 0. -/
theorem signData_failure_aborts (oracle : Nat → Nat) (L M cap : Nat)
    (dev : TSS_DEVICE) (k : Nat) (hM : 0 < M) (hMax : M ≤ MAX_DIGEST_BUFFER)
    (hcap : 32 ≤ cap) :
    ((∀ j, j < k → CleanResponseCode (oracle j) = TPM_RC_SUCCESS) →
      CleanResponseCode (oracle k) ≠ TPM_RC_SUCCESS →
      k < (signDataCmds L M).length →
      (SignData oracle L M cap dev).2.1 = 0 ∧
      (SignData oracle L M cap dev).2.2.1 = false ∧
      (SignData oracle L M cap dev).1.LastRawResponse = oracle k) ∧
    ((∀ j, CleanResponseCode (oracle j) = TPM_RC_SUCCESS) →
      (SignData oracle L M cap dev).2.1 = 32 ∧ (32 : Nat) ≠ 0) := by
  by_cases hL : M < L
  · -- chunked path
    have hlen : (signDataCmds L M).length = (L - 1) / M + 2 := by
      rw [signDataCmds_gt L M hM hMax hL]
      simp [List.length_replicate]
    have hbound := final_chunk_bounds L M hM hL
    constructor
    · intro hpre hfail hk
      rw [hlen] at hk
      unfold SignData
      rw [if_neg (show ¬ cap < 32 by omega), if_pos hL]
      cases k with
      | zero =>
        simp only [ne_eq, hfail, not_false_eq_true, if_true]
        refine ⟨?_, ?_, ?_⟩ <;> trivial
      | succ q =>
        have h0 : CleanResponseCode (oracle 0) = TPM_RC_SUCCESS := hpre 0 (by omega)
        simp only [h0, ne_eq, not_true_eq_false, if_false]
        by_cases hmid : q + 1 ≤ (L - 1) / M
        · -- failure in an update command
          have hrw := runUpdates_fail oracle M hM hMax L 1
            { LastRawResponse := oracle 0 } q hL (by omega)
            (by
              intro j hj
              have hidx : 1 + j = (j + 1) := by omega
              rw [hidx]
              exact hpre (j + 1) (by omega))
            (by
              have hidx : 1 + q = q + 1 := by omega
              rw [hidx]
              exact hfail)
          rw [hrw]
          have hidx : 1 + q = q + 1 := by omega
          simp only [ne_eq, hidx, hfail, not_false_eq_true, if_true]
          refine ⟨?_, ?_, ?_⟩ <;> trivial
        · -- failure in the final complete command
          have hq : q = (L - 1) / M := by omega
          subst hq
          have hrw := runUpdates_ok oracle M hM hMax L 1
            { LastRawResponse := oracle 0 } hL
            (by
              intro j hj
              have hidx : 1 + j = (j + 1) := by omega
              rw [hidx]
              exact hpre (j + 1) (by omega))
          rw [hrw]
          simp only [ne_eq, not_true_eq_false, if_false]
          rw [if_neg (show ¬ MAX_DIGEST_BUFFER < L - M * ((L - 1) / M) by omega)]
          have hidx : 1 + (L - 1) / M = (L - 1) / M + 1 := by omega
          simp only [hidx, ne_eq, hfail, not_false_eq_true, if_true]
          refine ⟨?_, ?_, ?_⟩ <;> trivial
    · intro hall
      unfold SignData
      rw [if_neg (show ¬ cap < 32 by omega), if_pos hL]
      simp only [hall 0, ne_eq, not_true_eq_false, if_false]
      rw [runUpdates_ok oracle M hM hMax L 1 { LastRawResponse := oracle 0 } hL
        (by
          intro j hj
          have hidx : 1 + j = j + 1 := by omega
          rw [hidx]
          exact hall (j + 1))]
      simp only [ne_eq, not_true_eq_false, if_false]
      rw [if_neg (show ¬ MAX_DIGEST_BUFFER < L - M * ((L - 1) / M) by omega)]
      simp only [hall (1 + (L - 1) / M), ne_eq, not_true_eq_false, if_false]
      exact ⟨by trivial, by omega⟩
  · -- one-shot path
    have hlen : (signDataCmds L M).length = 1 := by
      rw [signDataCmds_le L M hMax (by omega)]
      rfl
    constructor
    · intro hpre hfail hk
      rw [hlen] at hk
      have hk0 : k = 0 := by omega
      subst hk0
      unfold SignData
      rw [if_neg (show ¬ cap < 32 by omega), if_neg hL,
        if_neg (show ¬ MAX_DIGEST_BUFFER < L by omega)]
      simp only [ne_eq, hfail, not_false_eq_true, if_true]
      refine ⟨?_, ?_, ?_⟩ <;> trivial
    · intro hall
      unfold SignData
      rw [if_neg (show ¬ cap < 32 by omega), if_neg hL,
        if_neg (show ¬ MAX_DIGEST_BUFFER < L by omega)]
      simp only [hall 0, ne_eq, not_true_eq_false, if_false]
      exact ⟨by trivial, by omega⟩

/-- C10 witness: `L = 5`, `M = 2`, and a device failing the first update
command (the second dispatched command) with raw status `0x100`. -/
theorem signData_failure_aborts_witness :
    (SignData (fun i => if i = 1 then 0x100 else 0) 5 2 32 default).2.1 = 0 ∧
    (SignData (fun i => if i = 1 then 0x100 else 0) 5 2 32 default).2.2.1 = false ∧
    (SignData (fun i => if i = 1 then 0x100 else 0) 5 2 32 default).1.LastRawResponse =
      0x100 :=
  (signData_failure_aborts (fun i => if i = 1 then 0x100 else 0) 5 2 32 default 1
    (by decide) (by decide) (by decide)).1
    (by decide)
    (by decide)
    (by
      rw [signDataCmds_gt 5 2 (by decide) (by decide) (by decide)]
      decide)

/-! ### Password session construction (tpm_codec.c lines 553–573) -/

/-- `TSS_CreatePwAuthSession`: `none` models a NULL pointer argument.
Purely local (no transport parameter: the C function performs no I/O).
Setting the `continueSession` bit-field member is `attrs ||| 1`
(bit 0), leaving the other attribute bits as they were; `TSS_COPY2B`
copies the authorization value into the HMAC field.  Returns the
`TPM_RC` and the updated session. -/
def TSS_CreatePwAuthSession (authValue : Option (List Nat))
    (session : Option TSS_SESSION) : Nat × Option TSS_SESSION :=
  match authValue, session with
  | some av, some s =>
    (TPM_RC_SUCCESS, some
      { SessIn :=
          { sessionHandle := TPM_RS_PW
            nonce := []
            sessionAttributes := s.SessIn.sessionAttributes ||| 1
            hmac := av }
        SessOut :=
          { s.SessOut with
              sessionAttributes := s.SessOut.sessionAttributes ||| 1 } })
  | _, _ => (TPM_RC_FAILURE, session)

/-- C9: with non-NULL arguments (and an authorization value within the
`TPM2B_AUTH` capacity of 64 bytes) the password-session constructor
succeeds; the resulting session has the password sentinel handle, a
zero-length nonce, the caller's authorization value in the HMAC field,
and the continue-session bit set on both the input and output records. -/
theorem createPwAuthSession_spec (av : List Nat) (s : TSS_SESSION)
    (hcap : av.length ≤ 64) :
    (TSS_CreatePwAuthSession (some av) (some s)).1 = TPM_RC_SUCCESS ∧
    ∃ s', (TSS_CreatePwAuthSession (some av) (some s)).2 = some s' ∧
      s'.SessIn.sessionHandle = TPM_RS_PW ∧
      s'.SessIn.nonce = [] ∧
      s'.SessIn.hmac = av ∧
      s'.SessIn.sessionAttributes &&& 1 = 1 ∧
      s'.SessOut.sessionAttributes &&& 1 = 1 := by
  refine ⟨rfl, ⟨_, rfl, rfl, rfl, rfl, ?_, ?_⟩⟩
  · show (s.SessIn.sessionAttributes ||| 1) &&& 1 = 1
    apply Nat.eq_of_testBit_eq
    intro i
    cases i with
    | zero => simp [Nat.testBit_land, Nat.testBit_lor]
    | succ j => simp [Nat.testBit_land, Nat.testBit_lor, Nat.testBit_succ]
  · show (s.SessOut.sessionAttributes ||| 1) &&& 1 = 1
    apply Nat.eq_of_testBit_eq
    intro i
    cases i with
    | zero => simp [Nat.testBit_land, Nat.testBit_lor]
    | succ j => simp [Nat.testBit_land, Nat.testBit_lor, Nat.testBit_succ]

/-- C9 witness: a 3-byte authorization value and a blank session. -/
theorem createPwAuthSession_spec_witness :
    (TSS_CreatePwAuthSession (some [1, 2, 3]) (some ⟨⟨0, [], 0, []⟩, ⟨[], 0⟩⟩)).1 =
      TPM_RC_SUCCESS ∧
    ∃ s', (TSS_CreatePwAuthSession (some [1, 2, 3])
        (some ⟨⟨0, [], 0, []⟩, ⟨[], 0⟩⟩)).2 = some s' ∧
      s'.SessIn.sessionHandle = TPM_RS_PW ∧
      s'.SessIn.nonce = [] ∧
      s'.SessIn.hmac = [1, 2, 3] ∧
      s'.SessIn.sessionAttributes &&& 1 = 1 ∧
      s'.SessOut.sessionAttributes &&& 1 = 1 :=
  createPwAuthSession_spec [1, 2, 3] ⟨⟨0, [], 0, []⟩, ⟨[], 0⟩⟩ (by decide)

/-! ### Capability query (tpm_codec.c lines 575–606) -/

/-- First slot of the tagged-property list in a capability response
(the C array `tpmProperty[0]` always exists). -/
structure TPMS_TAGGED_PROPERTY where
  property : Nat
  value : Nat
deriving DecidableEq

structure TPML_TAGGED_TPM_PROPERTY where
  count : Nat
  tpmProperty0 : TPMS_TAGGED_PROPERTY
deriving DecidableEq

structure TPMS_CAPABILITY_DATA where
  capability : Nat
  tpmProperties : TPML_TAGGED_TPM_PROPERTY
deriving DecidableEq

/-- `TSS_GetTpmProperty`, as a function of the outcome of the
`TPM2_GetCapability` round trip: `rc` is the dispatch result and
`capData` the decoded capability structure. -/
def TSS_GetTpmProperty (rc : Nat) (capData : TPMS_CAPABILITY_DATA)
    (property : Nat) : Nat :=
  if rc ≠ TPM_RC_SUCCESS ∨ capData.capability ≠ TPM_CAP_TPM_PROPERTIES then
    TSS_BAD_PROPERTY
  else if capData.tpmProperties.count ≠ 1 then
    TSS_BAD_PROPERTY
  else if capData.tpmProperties.tpmProperty0.property ≠ property then
    TSS_BAD_PROPERTY
  else
    capData.tpmProperties.tpmProperty0.value

/-- C8: the capability query returns `TSS_BAD_PROPERTY` whenever the
dispatch failed, the reported capability category differs from
TPM-properties, the property count differs from one, or the echoed
property identifier differs from the requested one; it returns the
fetched 32-bit value exactly when all checks pass. -/
theorem getTpmProperty_spec (rc : Nat) (capData : TPMS_CAPABILITY_DATA)
    (property : Nat) :
    ((rc ≠ TPM_RC_SUCCESS ∨ capData.capability ≠ TPM_CAP_TPM_PROPERTIES ∨
        capData.tpmProperties.count ≠ 1 ∨
        capData.tpmProperties.tpmProperty0.property ≠ property) →
      TSS_GetTpmProperty rc capData property = TSS_BAD_PROPERTY) ∧
    ((rc = TPM_RC_SUCCESS ∧ capData.capability = TPM_CAP_TPM_PROPERTIES ∧
        capData.tpmProperties.count = 1 ∧
        capData.tpmProperties.tpmProperty0.property = property) →
      TSS_GetTpmProperty rc capData property =
        capData.tpmProperties.tpmProperty0.value) := by
  constructor
  · intro hbad
    unfold TSS_GetTpmProperty
    rcases hbad with h | h | h | h
    · rw [if_pos (Or.inl h)]
    · rw [if_pos (Or.inr h)]
    · by_cases hfst : rc ≠ TPM_RC_SUCCESS ∨ capData.capability ≠ TPM_CAP_TPM_PROPERTIES
      · rw [if_pos hfst]
      · rw [if_neg hfst, if_pos h]
    · by_cases hfst : rc ≠ TPM_RC_SUCCESS ∨ capData.capability ≠ TPM_CAP_TPM_PROPERTIES
      · rw [if_pos hfst]
      · rw [if_neg hfst]
        by_cases hcnt : capData.tpmProperties.count ≠ 1
        · rw [if_pos hcnt]
        · rw [if_neg hcnt, if_pos h]
  · rintro ⟨h1, h2, h3, h4⟩
    unfold TSS_GetTpmProperty
    rw [if_neg (by simp [h1, h2]), if_neg (by simp [h3]), if_neg (by simp [h4])]

/-- C8 witness: a well-formed response yields the value; the same
response with a mismatched property identifier yields the failure
sentinel. -/
theorem getTpmProperty_spec_witness :
    TSS_GetTpmProperty 0 ⟨6, ⟨1, ⟨24, 1024⟩⟩⟩ 24 = 1024 ∧
    TSS_GetTpmProperty 0 ⟨6, ⟨1, ⟨25, 1024⟩⟩⟩ 24 = TSS_BAD_PROPERTY :=
  ⟨(getTpmProperty_spec 0 ⟨6, ⟨1, ⟨24, 1024⟩⟩⟩ 24).2 (by decide),
    (getTpmProperty_spec 0 ⟨6, ⟨1, ⟨25, 1024⟩⟩⟩ 24).1 (by decide)⟩
